import Mathlib

/-!
Shallow embedding of the MPC-to-line quiz controller
(src/mpc_to_line/src/MPC.cpp and MPC.h).

The C++ code computes with CppAD dual numbers over double; we embed the
numeric type as an arbitrary field, passing the transcendental operations
cos, sin and atan as explicit function parameters (mirroring the CppAD
template parameter).  The claim-level theorems instantiate the field at
the real numbers with Real.cos, Real.sin and Real.arctan.

The horizon length N and the step dt are global variables in the source
(set to 25 and 0.05); every embedded definition takes them as parameters,
and the source defaults are recorded as constants.
-/

namespace MpcToLine

/-- Source line 29: distance from front axle to center of gravity. -/
def Lf (α : Type) [Field α] : α := 2.67

/-- Source line 33: reference cross track error. -/
def ref_cte (α : Type) [Field α] : α := 0

/-- Source line 34: reference heading error. -/
def ref_epsi (α : Type) [Field α] : α := 0

/-- Source line 35: reference velocity. -/
def ref_v (α : Type) [Field α] : α := 40

/-- Source line 16: the default number of timesteps. -/
def N_default : ℕ := 25

/-- Source line 17: the default timestep length. -/
def dt_default (α : Type) [Field α] : α := 0.05

/-- Source line 40: offset of the x block in the decision vector. -/
def x_start (N : ℕ) : ℕ := 0

/-- Source line 41: offset of the y block. -/
def y_start (N : ℕ) : ℕ := x_start N + N

/-- Source line 42: offset of the psi block. -/
def psi_start (N : ℕ) : ℕ := y_start N + N

/-- Source line 43: offset of the v block. -/
def v_start (N : ℕ) : ℕ := psi_start N + N

/-- Source line 44: offset of the cte block. -/
def cte_start (N : ℕ) : ℕ := v_start N + N

/-- Source line 45: offset of the epsi block. -/
def epsi_start (N : ℕ) : ℕ := cte_start N + N

/-- Source line 46: offset of the steering block. -/
def delta_start (N : ℕ) : ℕ := epsi_start N + N

/-- Source line 47: offset of the acceleration block. -/
def a_start (N : ℕ) : ℕ := delta_start N + N - 1

/-- Source line 166: number of decision variables allocated by MPC::Solve. -/
def n_vars (N : ℕ) : ℕ := N * 6 + (N - 1) * 2

/-- Source line 168: number of constraints allocated by MPC::Solve. -/
def n_constraints (N : ℕ) : ℕ := N * 6

lemma x_start_eq (N : ℕ) : x_start N = 0 := rfl

lemma y_start_eq (N : ℕ) : y_start N = N := by
  simp [y_start, x_start]

lemma psi_start_eq (N : ℕ) : psi_start N = 2 * N := by
  simp [psi_start, y_start, x_start]; omega

lemma v_start_eq (N : ℕ) : v_start N = 3 * N := by
  simp [v_start, psi_start, y_start, x_start]; omega

lemma cte_start_eq (N : ℕ) : cte_start N = 4 * N := by
  simp [cte_start, v_start, psi_start, y_start, x_start]; omega

lemma epsi_start_eq (N : ℕ) : epsi_start N = 5 * N := by
  simp [epsi_start, cte_start, v_start, psi_start, y_start, x_start]; omega

lemma delta_start_eq (N : ℕ) : delta_start N = 6 * N := by
  simp [delta_start, epsi_start, cte_start, v_start, psi_start, y_start, x_start]; omega

lemma a_start_eq (N : ℕ) : a_start N = 7 * N - 1 := by
  simp [a_start, delta_start_eq]; omega

/-- Source lines 172-182: the decision vector is allocated with n_vars
entries, zero-filled, and the six initial-state entries are seeded from
the input state. -/
def varsInitList (α : Type) [Field α] (N : ℕ) (x y psi v cte epsi : α) : List α :=
  ((((((List.replicate (n_vars N) (0 : α)).set (x_start N) x).set (y_start N) y).set
    (psi_start N) psi).set (v_start N) v).set (cte_start N) cte).set (epsi_start N) epsi

/-- C4: for every horizon with N at least 2, the decision vector built by
MPC::Solve has length 6N + 2(N-1), the constraint vector has length 6N,
and the block offsets are the stated pure functions of N: six state blocks
of N entries each at 0, N, 2N, 3N, 4N, 5N, then the N-1 steering entries
at 6N and the N-1 acceleration entries at 7N-1. -/
theorem vector_sizes_and_offsets (N : ℕ) (hN : 2 ≤ N) (x y psi v cte epsi : ℝ) :
    (varsInitList ℝ N x y psi v cte epsi).length = 6 * N + 2 * (N - 1) ∧
    n_vars N = 6 * N + 2 * (N - 1) ∧
    n_constraints N = 6 * N ∧
    x_start N = 0 ∧ y_start N = N ∧ psi_start N = 2 * N ∧ v_start N = 3 * N ∧
    cte_start N = 4 * N ∧ epsi_start N = 5 * N ∧
    delta_start N = 6 * N ∧ a_start N = 7 * N - 1 := by
  refine ⟨?_, ?_, ?_, x_start_eq N, y_start_eq N, psi_start_eq N, v_start_eq N,
    cte_start_eq N, epsi_start_eq N, delta_start_eq N, a_start_eq N⟩
  · simp [varsInitList, n_vars]
    omega
  · simp [n_vars]; omega
  · simp [n_constraints]; omega

/-- Witness for C4 at the source configuration N = 25. -/
theorem vector_sizes_and_offsets_witness :
    2 ≤ 25 ∧
    ((varsInitList ℝ 25 1 2 3 4 5 6).length = 6 * 25 + 2 * (25 - 1) ∧
    n_vars 25 = 6 * 25 + 2 * (25 - 1) ∧
    n_constraints 25 = 6 * 25 ∧
    x_start 25 = 0 ∧ y_start 25 = 25 ∧ psi_start 25 = 2 * 25 ∧ v_start 25 = 3 * 25 ∧
    cte_start 25 = 4 * 25 ∧ epsi_start 25 = 5 * 25 ∧
    delta_start 25 = 6 * 25 ∧ a_start 25 = 7 * 25 - 1) :=
  ⟨by norm_num, vector_sizes_and_offsets 25 (by norm_num) 1 2 3 4 5 6⟩

/-- Source lines 190-208: per-variable lower bounds. The three loops set
the state entries (indices below delta_start) to -1.0e19, the steering
entries (from delta_start up to a_start) to -0.436332 and the remaining
acceleration entries to -1.0. -/
def vars_lowerbound (α : Type) [Field α] (N : ℕ) (j : ℕ) : α :=
  if j < delta_start N then -(1.0e19 : α)
  else if j < a_start N then -(0.436332 : α)
  else -(1.0 : α)

/-- Source lines 190-208: per-variable upper bounds, mirroring the lower
bounds with positive signs. -/
def vars_upperbound (α : Type) [Field α] (N : ℕ) (j : ℕ) : α :=
  if j < delta_start N then (1.0e19 : α)
  else if j < a_start N then (0.436332 : α)
  else (1.0 : α)

/-- Source lines 213-231: constraint lower bounds, all zero and then the
six initial-condition entries overwritten with the input state. -/
def constraints_lowerbound (α : Type) [Field α] (N : ℕ)
    (x y psi v cte epsi : α) : ℕ → α :=
  Function.update (Function.update (Function.update (Function.update (Function.update
    (Function.update (fun _ => (0 : α))
      (x_start N) x) (y_start N) y) (psi_start N) psi) (v_start N) v)
      (cte_start N) cte) (epsi_start N) epsi

/-- Source lines 213-231: constraint upper bounds, written identically to
the lower bounds. -/
def constraints_upperbound (α : Type) [Field α] (N : ℕ)
    (x y psi v cte epsi : α) : ℕ → α :=
  Function.update (Function.update (Function.update (Function.update (Function.update
    (Function.update (fun _ => (0 : α))
      (x_start N) x) (y_start N) y) (psi_start N) psi) (v_start N) v)
      (cte_start N) cte) (epsi_start N) epsi

lemma constraints_lowerbound_apply (α : Type) [Field α] (N : ℕ)
    (x y psi v cte epsi : α) (j : ℕ) :
    constraints_lowerbound α N x y psi v cte epsi j =
      if j = epsi_start N then epsi
      else if j = cte_start N then cte
      else if j = v_start N then v
      else if j = psi_start N then psi
      else if j = y_start N then y
      else if j = x_start N then x
      else 0 := by
  simp [constraints_lowerbound, Function.update_apply]

lemma constraints_upperbound_apply (α : Type) [Field α] (N : ℕ)
    (x y psi v cte epsi : α) (j : ℕ) :
    constraints_upperbound α N x y psi v cte epsi j =
      if j = epsi_start N then epsi
      else if j = cte_start N then cte
      else if j = v_start N then v
      else if j = psi_start N then psi
      else if j = y_start N then y
      else if j = x_start N then x
      else 0 := by
  simp [constraints_upperbound, Function.update_apply]

/-- C5: the constraint-bound vectors built by MPC::Solve are zero at every
index below 6N except the six initial-condition indices, where both the
lower and upper bound equal the corresponding component of the input
state (an exact equality pin). -/
theorem constraint_bounds_initial_pin (N : ℕ) (hN : 2 ≤ N)
    (x y psi v cte epsi : ℝ) :
    (constraints_lowerbound ℝ N x y psi v cte epsi (x_start N) = x ∧
     constraints_upperbound ℝ N x y psi v cte epsi (x_start N) = x ∧
     constraints_lowerbound ℝ N x y psi v cte epsi (y_start N) = y ∧
     constraints_upperbound ℝ N x y psi v cte epsi (y_start N) = y ∧
     constraints_lowerbound ℝ N x y psi v cte epsi (psi_start N) = psi ∧
     constraints_upperbound ℝ N x y psi v cte epsi (psi_start N) = psi ∧
     constraints_lowerbound ℝ N x y psi v cte epsi (v_start N) = v ∧
     constraints_upperbound ℝ N x y psi v cte epsi (v_start N) = v ∧
     constraints_lowerbound ℝ N x y psi v cte epsi (cte_start N) = cte ∧
     constraints_upperbound ℝ N x y psi v cte epsi (cte_start N) = cte ∧
     constraints_lowerbound ℝ N x y psi v cte epsi (epsi_start N) = epsi ∧
     constraints_upperbound ℝ N x y psi v cte epsi (epsi_start N) = epsi) ∧
    ∀ j, j < 6 * N →
      j ∉ ([x_start N, y_start N, psi_start N, v_start N, cte_start N,
            epsi_start N] : List ℕ) →
      constraints_lowerbound ℝ N x y psi v cte epsi j = 0 ∧
      constraints_upperbound ℝ N x y psi v cte epsi j = 0 := by
  constructor
  · simp only [constraints_lowerbound_apply, constraints_upperbound_apply,
      x_start_eq, y_start_eq, psi_start_eq, v_start_eq, cte_start_eq, epsi_start_eq]
    refine ⟨?_, ?_, ?_, ?_, ?_, ?_, ?_, ?_, ?_, ?_, ?_, ?_⟩ <;>
      split_ifs <;> first | rfl | omega
  · intro j hj hmem
    simp only [List.mem_cons, List.not_mem_nil, or_false] at hmem
    push_neg at hmem
    obtain ⟨m1, m2, m3, m4, m5, m6⟩ := hmem
    rw [constraints_lowerbound_apply, constraints_upperbound_apply,
      if_neg m6, if_neg m5, if_neg m4, if_neg m3, if_neg m2, if_neg m1]
    exact ⟨rfl, rfl⟩

/-- Witness for C5 at N = 25 with a concrete state, checking index 7. -/
theorem constraint_bounds_initial_pin_witness :
    2 ≤ 25 ∧
    ((constraints_lowerbound ℝ 25 1 2 3 4 5 6 (x_start 25) = 1 ∧
      constraints_upperbound ℝ 25 1 2 3 4 5 6 (x_start 25) = 1 ∧
      constraints_lowerbound ℝ 25 1 2 3 4 5 6 (y_start 25) = 2 ∧
      constraints_upperbound ℝ 25 1 2 3 4 5 6 (y_start 25) = 2 ∧
      constraints_lowerbound ℝ 25 1 2 3 4 5 6 (psi_start 25) = 3 ∧
      constraints_upperbound ℝ 25 1 2 3 4 5 6 (psi_start 25) = 3 ∧
      constraints_lowerbound ℝ 25 1 2 3 4 5 6 (v_start 25) = 4 ∧
      constraints_upperbound ℝ 25 1 2 3 4 5 6 (v_start 25) = 4 ∧
      constraints_lowerbound ℝ 25 1 2 3 4 5 6 (cte_start 25) = 5 ∧
      constraints_upperbound ℝ 25 1 2 3 4 5 6 (cte_start 25) = 5 ∧
      constraints_lowerbound ℝ 25 1 2 3 4 5 6 (epsi_start 25) = 6 ∧
      constraints_upperbound ℝ 25 1 2 3 4 5 6 (epsi_start 25) = 6) ∧
     ∀ j, j < 6 * 25 →
       j ∉ ([x_start 25, y_start 25, psi_start 25, v_start 25, cte_start 25,
             epsi_start 25] : List ℕ) →
       constraints_lowerbound ℝ 25 1 2 3 4 5 6 j = 0 ∧
       constraints_upperbound ℝ 25 1 2 3 4 5 6 j = 0) :=
  ⟨by norm_num, constraint_bounds_initial_pin 25 (by norm_num) 1 2 3 4 5 6⟩

/-- C6: the per-variable bounds are the sentinel -1.0e19 and 1.0e19 (the
code's representation of an effectively unbounded entry) on every state
entry, -0.436332 and 0.436332 on every steering entry, -1.0 and 1.0 on
every acceleration entry, and every lower bound is the negation of the
matching upper bound (symmetry around zero). -/
theorem variable_bounds_spec (N : ℕ) (hN : 2 ≤ N) :
    (∀ j, j < delta_start N →
      vars_lowerbound ℝ N j = -(1.0e19) ∧ vars_upperbound ℝ N j = 1.0e19) ∧
    (∀ i, i < N - 1 →
      vars_lowerbound ℝ N (delta_start N + i) = -(0.436332) ∧
      vars_upperbound ℝ N (delta_start N + i) = 0.436332) ∧
    (∀ i, i < N - 1 →
      vars_lowerbound ℝ N (a_start N + i) = -(1.0) ∧
      vars_upperbound ℝ N (a_start N + i) = 1.0) ∧
    (∀ j, j < n_vars N →
      vars_lowerbound ℝ N j = -(vars_upperbound ℝ N j)) := by
  refine ⟨?_, ?_, ?_, ?_⟩
  · intro j hj
    rw [vars_lowerbound, vars_upperbound, if_pos hj, if_pos hj]
    exact ⟨rfl, rfl⟩
  · intro i hi
    have h1 : ¬ (delta_start N + i < delta_start N) := by omega
    have h2 : delta_start N + i < a_start N := by
      rw [delta_start_eq, a_start_eq]; omega
    rw [vars_lowerbound, vars_upperbound, if_neg h1, if_pos h2, if_neg h1, if_pos h2]
    exact ⟨rfl, rfl⟩
  · intro i hi
    have h1 : ¬ (a_start N + i < delta_start N) := by
      rw [delta_start_eq, a_start_eq]; omega
    have h2 : ¬ (a_start N + i < a_start N) := by omega
    rw [vars_lowerbound, vars_upperbound, if_neg h1, if_neg h2, if_neg h1, if_neg h2]
    exact ⟨rfl, rfl⟩
  · intro j hj
    rw [vars_lowerbound, vars_upperbound]
    split_ifs <;> norm_num

/-- Witness for C6 at N = 25. -/
theorem variable_bounds_spec_witness :
    2 ≤ 25 ∧
    ((∀ j, j < delta_start 25 →
      vars_lowerbound ℝ 25 j = -(1.0e19) ∧ vars_upperbound ℝ 25 j = 1.0e19) ∧
    (∀ i, i < 25 - 1 →
      vars_lowerbound ℝ 25 (delta_start 25 + i) = -(0.436332) ∧
      vars_upperbound ℝ 25 (delta_start 25 + i) = 0.436332) ∧
    (∀ i, i < 25 - 1 →
      vars_lowerbound ℝ 25 (a_start 25 + i) = -(1.0) ∧
      vars_upperbound ℝ 25 (a_start 25 + i) = 1.0) ∧
    (∀ j, j < n_vars 25 →
      vars_lowerbound ℝ 25 j = -(vars_upperbound ℝ 25 j))) :=
  ⟨by norm_num, variable_bounds_spec 25 (by norm_num)⟩

/-- The status codes of the external ipopt solve facility
(CppAD::ipopt::solve_result).  The source only ever compares the status
against success (line 255). -/
inductive SolverStatus where
  | not_defined
  | success
  | maxiter_exceeded
  | stop_at_tiny_step
  | stop_at_acceptable_point
  | local_infeasibility
  | user_requested_stop
  | feasible_point_found
  | diverging_iterates
  | restoration_failure
  | error_in_step_computation
  | invalid_number_detected
  | too_few_degrees_of_freedom
  | internal_error
  | unknown
  deriving DecidableEq

/-- The two ways the tail of MPC::Solve (lines 254-272) can end: a process
exit through exit(EXIT_FAILURE) at line 265, or a normal return of the
nine-element result vector.  In both cases the mpc_x and mpc_y trajectory
buffers have already been filled (lines 259-262 run before the check). -/
inductive SolveOutcome (α : Type) where
  | exitFailure (mpc_x mpc_y : List α)
  | ret (result mpc_x mpc_y : List α)

/-- Source lines 259-262: the predicted x trajectory pushed into mpc_x,
one entry per horizon step, read from the solution's x block. -/
def mpc_x_out (α : Type) [Field α] (N : ℕ) (sol : ℕ → α) : List α :=
  (List.range N).map fun i => sol (x_start N + i)

/-- Source lines 259-262: the predicted y trajectory pushed into mpc_y,
read from the solution's y block. -/
def mpc_y_out (α : Type) [Field α] (N : ℕ) (sol : ℕ → α) : List α :=
  (List.range N).map fun i => sol (y_start N + i)

/-- Source lines 267-271: the returned vector: the six state-block entries
at offset one, the first steering and first acceleration entries, and the
objective value. -/
def solveReturn (α : Type) [Field α] (N : ℕ) (sol : ℕ → α) (cost : α) : List α :=
  [sol (x_start N + 1), sol (y_start N + 1), sol (psi_start N + 1),
   sol (v_start N + 1), sol (cte_start N + 1), sol (epsi_start N + 1),
   sol (delta_start N), sol (a_start N), cost]

/-- Source lines 254-272: the tail of MPC::Solve after the external solver
returns.  ok is the comparison of the solver status with success; the
trajectory buffers are filled unconditionally, then a non-ok status leads
to exit(EXIT_FAILURE), otherwise the result vector is returned. -/
def solveFinish (α : Type) [Field α] (N : ℕ) (status : SolverStatus)
    (sol : ℕ → α) (cost : α) : SolveOutcome α :=
  if status = SolverStatus.success then
    SolveOutcome.ret (solveReturn α N sol cost) (mpc_x_out α N sol) (mpc_y_out α N sol)
  else
    SolveOutcome.exitFailure (mpc_x_out α N sol) (mpc_y_out α N sol)

/-- C1 counterexample: at the concrete input N = 25, status
maxiter_exceeded (a non-success status), zero solution and zero cost,
MPC::Solve reaches exit(EXIT_FAILURE): the outcome is a process exit, so
no typed failure is returned to the caller, refuting the claim that a
non-success status is surfaced as a typed failure without terminating
the process. -/
theorem solve_nonconvergence_exits_process :
    solveFinish ℝ 25 SolverStatus.maxiter_exceeded (fun _ => 0) 0 =
      SolveOutcome.exitFailure (mpc_x_out ℝ 25 (fun _ => 0))
        (mpc_y_out ℝ 25 (fun _ => 0)) := by
  rw [solveFinish, if_neg (by decide)]

/-- C1 amended: when the external solver reports any status other than
success, MPC::Solve prints an error and terminates the process through
exit(EXIT_FAILURE) after filling the trajectory buffers; it returns no
value (typed or otherwise) to its caller. -/
theorem solve_failure_terminates_with_exit (α : Type) [Field α] (N : ℕ)
    (status : SolverStatus) (hs : status ≠ SolverStatus.success)
    (sol : ℕ → α) (cost : α) :
    solveFinish α N status sol cost =
      SolveOutcome.exitFailure (mpc_x_out α N sol) (mpc_y_out α N sol) := by
  rw [solveFinish, if_neg hs]

/-- Witness for the amended C1 at a concrete non-success status. -/
theorem solve_failure_terminates_with_exit_witness :
    SolverStatus.local_infeasibility ≠ SolverStatus.success ∧
    solveFinish ℝ 25 SolverStatus.local_infeasibility (fun _ => 1) 2 =
      SolveOutcome.exitFailure (mpc_x_out ℝ 25 (fun _ => 1))
        (mpc_y_out ℝ 25 (fun _ => 1)) :=
  ⟨by decide, solve_failure_terminates_with_exit ℝ 25
    SolverStatus.local_infeasibility (by decide) (fun _ => 1) 2⟩

/-- C7: on a successful solve, MPC::Solve returns the entry at offset one
of each of the six state blocks (indices 1, N+1, 2N+1, 3N+1, 4N+1, 5N+1
of the solution vector) as the next state, the first steering entry
(index 6N) and first acceleration entry (index 7N-1) as the actuation,
and the full x and y state blocks, N points each, as the predicted
trajectory. -/
theorem solve_success_extraction (N : ℕ) (hN : 2 ≤ N) (sol : ℕ → ℝ) (cost : ℝ) :
    solveFinish ℝ N SolverStatus.success sol cost =
      SolveOutcome.ret
        [sol 1, sol (N + 1), sol (2 * N + 1), sol (3 * N + 1), sol (4 * N + 1),
         sol (5 * N + 1), sol (6 * N), sol (7 * N - 1), cost]
        ((List.range N).map fun i => sol i)
        ((List.range N).map fun i => sol (N + i)) ∧
    (mpc_x_out ℝ N sol).length = N ∧ (mpc_y_out ℝ N sol).length = N := by
  refine ⟨?_, by simp [mpc_x_out], by simp [mpc_y_out]⟩
  rw [solveFinish, if_pos rfl]
  simp only [solveReturn, mpc_x_out, mpc_y_out, x_start_eq, y_start_eq,
    psi_start_eq, v_start_eq, cte_start_eq, epsi_start_eq, delta_start_eq,
    a_start_eq, zero_add]

/-- Witness for C7 at N = 25 with a concrete solution vector. -/
theorem solve_success_extraction_witness :
    2 ≤ 25 ∧
    (solveFinish ℝ 25 SolverStatus.success (fun _ => 3) 4 =
      SolveOutcome.ret
        [(fun _ => (3 : ℝ)) 1, (fun _ => (3 : ℝ)) (25 + 1),
         (fun _ => (3 : ℝ)) (2 * 25 + 1), (fun _ => (3 : ℝ)) (3 * 25 + 1),
         (fun _ => (3 : ℝ)) (4 * 25 + 1), (fun _ => (3 : ℝ)) (5 * 25 + 1),
         (fun _ => (3 : ℝ)) (6 * 25), (fun _ => (3 : ℝ)) (7 * 25 - 1), 4]
        ((List.range 25).map fun _ => (3 : ℝ))
        ((List.range 25).map fun _ => (3 : ℝ)) ∧
     (mpc_x_out ℝ 25 (fun _ => 3)).length = 25 ∧
     (mpc_y_out ℝ 25 (fun _ => 3)).length = 25) :=
  ⟨by norm_num, solve_success_extraction 25 (by norm_num) (fun _ => 3) 4⟩

/-- Source lines 296-304: the entries of the Vandermonde matrix A, built
row-wise by repeated multiplication: A(j,0) = 1 and A(j,i+1) = A(j,i) *
x_j.  This function gives the value of one row at column index i. -/
def vandermondeRow (α : Type) [Field α] (x : α) : ℕ → α
  | 0 => 1
  | i + 1 => vandermondeRow α x i * x

/-- How a call to polyfit can end: an assertion failure (the process
aborts, nothing is returned to the caller), or the coefficient vector
produced by the external QR least-squares solve. -/
inductive PolyfitOutcome (α : Type) where
  | assertionFailure
  | coeffs (c : ℕ → α)

/-- Source lines 290-309: polyfit.  It asserts that the two point lists
have equal size and that 1 <= order <= size - 1, builds the Vandermonde
matrix, and hands it with the y values and the order to the external
QR least-squares facility (Eigen householderQr, an external collaborator
abstracted as the qrSolve parameter).  A failed assertion aborts. -/
def polyfit (α : Type) [Field α]
    (qrSolve : (ℕ → ℕ → α) → List α → ℤ → (ℕ → α))
    (xvals yvals : List α) (order : ℤ) : PolyfitOutcome α :=
  if xvals.length = yvals.length then
    if 1 ≤ order ∧ order ≤ (xvals.length : ℤ) - 1 then
      PolyfitOutcome.coeffs
        (qrSolve (fun j i => vandermondeRow α (xvals.getD j 0) i) yvals order)
    else PolyfitOutcome.assertionFailure
  else PolyfitOutcome.assertionFailure

/-- C8 counterexample: requesting order = len(points) on two points (order
2) makes the assertion fail: the call aborts and returns nothing to the
caller, refuting the claim that an InvalidInput error value is returned.
The external QR facility is instantiated with a concrete function; it is
never reached. -/
theorem polyfit_invalid_order_aborts :
    polyfit ℚ (fun _ _ _ _ => 0) [0, 1] [2, 3] 2 =
      PolyfitOutcome.assertionFailure := by
  rw [polyfit, if_pos (by decide), if_neg (by decide)]

/-- C8 amended: polyfit requires order >= 1 and order <= len(points) - 1;
when the caller violates this (for example order = len(points)), the
assertion fails and the call aborts, so degenerate coefficients are never
silently returned — but no InvalidInput error value is returned to the
caller either, since an assertion failure terminates execution. -/
theorem polyfit_precondition_assertion (α : Type) [Field α]
    (qrSolve : (ℕ → ℕ → α) → List α → ℤ → (ℕ → α))
    (xvals yvals : List α) (order : ℤ)
    (h : ¬ (1 ≤ order ∧ order ≤ (xvals.length : ℤ) - 1)) :
    polyfit α qrSolve xvals yvals order = PolyfitOutcome.assertionFailure := by
  by_cases h1 : xvals.length = yvals.length
  · rw [polyfit, if_pos h1, if_neg h]
  · rw [polyfit, if_neg h1]

/-- Witness for the amended C8: order 3 on three points violates the
precondition and the call ends in the assertion failure. -/
theorem polyfit_precondition_assertion_witness :
    ¬ ((1 : ℤ) ≤ 3 ∧ (3 : ℤ) ≤ (([0, 1, 2] : List ℚ).length : ℤ) - 1) ∧
    polyfit ℚ (fun _ _ _ _ => 0) [0, 1, 2] [4, 5, 6] 3 =
      PolyfitOutcome.assertionFailure :=
  ⟨by decide, polyfit_precondition_assertion ℚ (fun _ _ _ _ => 0)
    [0, 1, 2] [4, 5, 6] 3 (by decide)⟩

/-- Source lines 311-334: transform_map_coord maps each world-frame
waypoint into the vehicle frame.  With c = fcos(theta - pi/2) and
s = fsin(theta - pi/2), a point (px, py) becomes
(-(px - x) * s + (py - y) * c, -(px - x) * c - (py - y) * s).
The source iterates over the x list reading the y list at the same index;
the two lists are zipped here.  As elsewhere, the trig functions and the
constant pi are parameters, instantiated with the real ones in the
theorems. -/
def transform_map_coord (α : Type) [Field α] (fcos fsin : α → α) (pi : α)
    (xvals yvals : List α) (vehicle_x vehicle_y vehicle_theta : α) :
    List α × List α :=
  let c := fcos (vehicle_theta - pi / 2)
  let s := fsin (vehicle_theta - pi / 2)
  ((xvals.zip yvals).map fun p => -(p.1 - vehicle_x) * s + (p.2 - vehicle_y) * c,
   (xvals.zip yvals).map fun p => -(p.1 - vehicle_x) * c - (p.2 - vehicle_y) * s)

/-- The inverse of the vehicle-frame transform, taken from the claim: the
inverse rotation (the transpose of the rotation applied by
transform_map_coord) followed by translation back by (x, y). -/
def inverse_transform_map_coord (α : Type) [Field α] (fcos fsin : α → α) (pi : α)
    (xvals yvals : List α) (vehicle_x vehicle_y vehicle_theta : α) :
    List α × List α :=
  let c := fcos (vehicle_theta - pi / 2)
  let s := fsin (vehicle_theta - pi / 2)
  ((xvals.zip yvals).map fun p => vehicle_x + (-(p.1 * s) - p.2 * c),
   (xvals.zip yvals).map fun p => vehicle_y + (p.1 * c - p.2 * s))

/-- C9: the coordinate transform is invertible: for every list of
waypoints and every vehicle pose, applying the inverse rotation and
translation to the transformed points recovers the original world-frame
coordinates exactly (the real-arithmetic statement of recovery within
floating-point tolerance). -/
theorem transform_roundtrip (xvals yvals : List ℝ)
    (h : xvals.length = yvals.length) (vx vy vtheta : ℝ) :
    inverse_transform_map_coord ℝ Real.cos Real.sin Real.pi
      (transform_map_coord ℝ Real.cos Real.sin Real.pi xvals yvals vx vy vtheta).1
      (transform_map_coord ℝ Real.cos Real.sin Real.pi xvals yvals vx vy vtheta).2
      vx vy vtheta = (xvals, yvals) := by
  have hsc : Real.sin (vtheta - Real.pi / 2) ^ 2 +
      Real.cos (vtheta - Real.pi / 2) ^ 2 = 1 :=
    Real.sin_sq_add_cos_sq (vtheta - Real.pi / 2)
  simp only [transform_map_coord, inverse_transform_map_coord]
  rw [List.zip_map', List.map_map, List.map_map, Prod.mk.injEq]
  constructor
  · conv_rhs => rw [show xvals = (xvals.zip yvals).map Prod.fst from
      (List.map_fst_zip xvals yvals (le_of_eq h)).symm]
    refine List.map_congr_left ?_
    intro p _
    simp only [Function.comp_apply]
    linear_combination (p.1 - vx) * hsc
  · conv_rhs => rw [show yvals = (xvals.zip yvals).map Prod.snd from
      (List.map_snd_zip xvals yvals (ge_of_eq h)).symm]
    refine List.map_congr_left ?_
    intro p _
    simp only [Function.comp_apply]
    linear_combination (p.2 - vy) * hsc

/-- Witness for C9 on two concrete waypoints and a concrete pose. -/
theorem transform_roundtrip_witness :
    ([1, 2] : List ℝ).length = ([3, 4] : List ℝ).length ∧
    inverse_transform_map_coord ℝ Real.cos Real.sin Real.pi
      (transform_map_coord ℝ Real.cos Real.sin Real.pi [1, 2] [3, 4] 5 6 7).1
      (transform_map_coord ℝ Real.cos Real.sin Real.pi [1, 2] [3, 4] 5 6 7).2
      5 6 7 = ([1, 2], [3, 4]) :=
  ⟨by decide, transform_roundtrip [1, 2] [3, 4] (by decide) 5 6 7⟩

/-- Source line 121: the hardcoded degree-3 evaluation of the fitted
polynomial at x0, f0 = coeffs[0] + coeffs[1] x0 + coeffs[2] x0^2 +
coeffs[3] x0^3. -/
def f0val (α : Type) [Field α] (coeffs : ℕ → α) (x0 : α) : α :=
  coeffs 0 + coeffs 1 * x0 + coeffs 2 * x0 ^ 2 + coeffs 3 * x0 ^ 3

/-- Source line 122: the reference heading, the arctangent of the
hardcoded derivative coeffs[1] + 2 coeffs[2] x0 + 3 coeffs[3] x0^2. -/
def psides0val (α : Type) [Field α] (fatan : α → α) (coeffs : ℕ → α) (x0 : α) : α :=
  fatan (coeffs 1 + 2 * coeffs 2 * x0 + 3 * coeffs 3 * x0 ^ 2)

/-- Source line 134: the x defect residual for step i. -/
def defect_x (α : Type) [Field α] (fcos : α → α) (N : ℕ) (dt : α)
    (vars : ℕ → α) (i : ℕ) : α :=
  vars (x_start N + i + 1) -
    (vars (x_start N + i) + vars (v_start N + i) * fcos (vars (psi_start N + i)) * dt)

/-- Source line 135: the y defect residual for step i. -/
def defect_y (α : Type) [Field α] (fsin : α → α) (N : ℕ) (dt : α)
    (vars : ℕ → α) (i : ℕ) : α :=
  vars (y_start N + i + 1) -
    (vars (y_start N + i) + vars (v_start N + i) * fsin (vars (psi_start N + i)) * dt)

/-- Source line 136: the psi defect residual for step i. -/
def defect_psi (α : Type) [Field α] (N : ℕ) (dt : α) (vars : ℕ → α) (i : ℕ) : α :=
  vars (psi_start N + i + 1) -
    (vars (psi_start N + i) +
      vars (v_start N + i) * vars (delta_start N + i) / Lf α * dt)

/-- Source line 137: the v defect residual for step i. -/
def defect_v (α : Type) [Field α] (N : ℕ) (dt : α) (vars : ℕ → α) (i : ℕ) : α :=
  vars (v_start N + i + 1) - (vars (v_start N + i) + vars (a_start N + i) * dt)

/-- Source lines 138-139: the cte defect residual for step i. -/
def defect_cte (α : Type) [Field α] (fsin : α → α) (N : ℕ) (dt : α)
    (coeffs vars : ℕ → α) (i : ℕ) : α :=
  vars (cte_start N + i + 1) -
    ((f0val α coeffs (vars (x_start N + i)) - vars (y_start N + i)) +
      vars (v_start N + i) * fsin (vars (epsi_start N + i)) * dt)

/-- Source lines 140-141: the epsi defect residual for step i. -/
def defect_epsi (α : Type) [Field α] (fatan : α → α) (N : ℕ) (dt : α)
    (coeffs vars : ℕ → α) (i : ℕ) : α :=
  vars (epsi_start N + i + 1) -
    ((vars (psi_start N + i) - psides0val α fatan coeffs (vars (x_start N + i))) +
      vars (v_start N + i) * vars (delta_start N + i) / Lf α * dt)

/-- Source lines 61-80: the cost accumulated into fg[0], in the order the
three loops execute: reference-tracking terms over N steps, then actuator
magnitudes over N-1 steps, then gaps of sequential actuations over N-2
steps. -/
def costAcc (α : Type) [Field α] (N : ℕ) (vars : ℕ → α) : α :=
  (List.range (N - 2)).foldl (fun acc i =>
      acc + (vars (delta_start N + i + 1) - vars (delta_start N + i)) ^ 2
          + (vars (a_start N + i + 1) - vars (a_start N + i)) ^ 2)
    ((List.range (N - 1)).foldl (fun acc i =>
        acc + vars (delta_start N + i) ^ 2 + vars (a_start N + i) ^ 2)
      ((List.range N).foldl (fun acc i =>
          acc + (vars (cte_start N + i) - ref_cte α) ^ 2
              + (vars (epsi_start N + i) - ref_epsi α) ^ 2
              + (vars (v_start N + i) - ref_v α) ^ 2)
        0))

/-- Source lines 92-97: the six initial-condition constraint entries,
fg[1 + block_start] = vars[block_start]. -/
def fgInitWrite (α : Type) [Field α] (N : ℕ) (vars : ℕ → α) (fg : ℕ → α) : ℕ → α :=
  Function.update (Function.update (Function.update (Function.update (Function.update
    (Function.update fg
      (1 + x_start N) (vars (x_start N)))
      (1 + y_start N) (vars (y_start N)))
      (1 + psi_start N) (vars (psi_start N)))
      (1 + v_start N) (vars (v_start N)))
      (1 + cte_start N) (vars (cte_start N)))
      (1 + epsi_start N) (vars (epsi_start N))

/-- Source lines 100-142: one iteration of the defect loop, writing the
six residuals of step i at fg[2 + block_start + i]. -/
def defectStep (α : Type) [Field α] (fcos fsin fatan : α → α) (N : ℕ) (dt : α)
    (coeffs vars : ℕ → α) (fg : ℕ → α) (i : ℕ) : ℕ → α :=
  Function.update (Function.update (Function.update (Function.update (Function.update
    (Function.update fg
      (2 + x_start N + i) (defect_x α fcos N dt vars i))
      (2 + y_start N + i) (defect_y α fsin N dt vars i))
      (2 + psi_start N + i) (defect_psi α N dt vars i))
      (2 + v_start N + i) (defect_v α N dt vars i))
      (2 + cte_start N + i) (defect_cte α fsin N dt coeffs vars i))
      (2 + epsi_start N + i) (defect_epsi α fatan N dt coeffs vars i)

/-- Source lines 58-143: FG_eval::operator().  Starting from a fresh fg
vector, write the cost into fg[0], the six initial-condition entries, and
then run the defect loop for i in [0, N-1). -/
def FG_eval (α : Type) [Field α] (fcos fsin fatan : α → α) (N : ℕ) (dt : α)
    (coeffs vars : ℕ → α) : ℕ → α :=
  (List.range (N - 1)).foldl (defectStep α fcos fsin fatan N dt coeffs vars)
    (fgInitWrite α N vars (Function.update (fun _ => (0 : α)) 0 (costAcc α N vars)))

/-- The spec's reference-curve value: the fitted polynomial of order 3
evaluated coefficient-wise, lowest degree first. -/
def polyAt (α : Type) [Field α] (coeffs : ℕ → α) (x : α) : α :=
  ∑ k in Finset.range 4, coeffs k * x ^ k

/-- The spec's reference-heading slope: the first derivative of the fitted
order-3 polynomial, evaluated coefficient-wise. -/
def polyDerivAt (α : Type) [Field α] (coeffs : ℕ → α) (x : α) : α :=
  ∑ k in Finset.range 3, ((k : α) + 1) * coeffs (k + 1) * x ^ k

lemma defectStep_apply_miss (α : Type) [Field α] (fcos fsin fatan : α → α)
    (N : ℕ) (dt : α) (coeffs vars fg : ℕ → α) (i k : ℕ)
    (h1 : k ≠ 2 + x_start N + i) (h2 : k ≠ 2 + y_start N + i)
    (h3 : k ≠ 2 + psi_start N + i) (h4 : k ≠ 2 + v_start N + i)
    (h5 : k ≠ 2 + cte_start N + i) (h6 : k ≠ 2 + epsi_start N + i) :
    defectStep α fcos fsin fatan N dt coeffs vars fg i k = fg k := by
  simp only [defectStep, Function.update_apply]
  rw [if_neg h6, if_neg h5, if_neg h4, if_neg h3, if_neg h2, if_neg h1]

lemma foldl_defectStep_miss (α : Type) [Field α] (fcos fsin fatan : α → α)
    (N : ℕ) (dt : α) (coeffs vars : ℕ → α) (k : ℕ) (l : List ℕ) :
    (∀ j ∈ l, k ≠ 2 + x_start N + j ∧ k ≠ 2 + y_start N + j ∧
      k ≠ 2 + psi_start N + j ∧ k ≠ 2 + v_start N + j ∧
      k ≠ 2 + cte_start N + j ∧ k ≠ 2 + epsi_start N + j) →
    ∀ fg : ℕ → α,
      (l.foldl (defectStep α fcos fsin fatan N dt coeffs vars) fg) k = fg k := by
  induction l with
  | nil => intro _ fg; rfl
  | cons a t ih =>
    intro hl fg
    rw [List.foldl_cons, ih (fun j hj => hl j (List.mem_cons_of_mem a hj))]
    obtain ⟨p1, p2, p3, p4, p5, p6⟩ := hl a (List.mem_cons_self a t)
    exact defectStep_apply_miss α fcos fsin fatan N dt coeffs vars fg a k
      p1 p2 p3 p4 p5 p6

lemma defectStep_apply_x (α : Type) [Field α] (fcos fsin fatan : α → α)
    (N : ℕ) (hN : 1 ≤ N) (dt : α) (coeffs vars fg : ℕ → α) (i : ℕ) :
    defectStep α fcos fsin fatan N dt coeffs vars fg i (2 + x_start N + i) =
      defect_x α fcos N dt vars i := by
  simp only [defectStep, Function.update_apply]
  rw [if_neg (by simp only [x_start_eq, epsi_start_eq]; omega),
    if_neg (by simp only [x_start_eq, cte_start_eq]; omega),
    if_neg (by simp only [x_start_eq, v_start_eq]; omega),
    if_neg (by simp only [x_start_eq, psi_start_eq]; omega),
    if_neg (by simp only [x_start_eq, y_start_eq]; omega),
    if_pos trivial]

lemma defectStep_apply_y (α : Type) [Field α] (fcos fsin fatan : α → α)
    (N : ℕ) (hN : 1 ≤ N) (dt : α) (coeffs vars fg : ℕ → α) (i : ℕ) :
    defectStep α fcos fsin fatan N dt coeffs vars fg i (2 + y_start N + i) =
      defect_y α fsin N dt vars i := by
  simp only [defectStep, Function.update_apply]
  rw [if_neg (by simp only [y_start_eq, epsi_start_eq]; omega),
    if_neg (by simp only [y_start_eq, cte_start_eq]; omega),
    if_neg (by simp only [y_start_eq, v_start_eq]; omega),
    if_neg (by simp only [y_start_eq, psi_start_eq]; omega),
    if_pos trivial]

lemma defectStep_apply_psi (α : Type) [Field α] (fcos fsin fatan : α → α)
    (N : ℕ) (hN : 1 ≤ N) (dt : α) (coeffs vars fg : ℕ → α) (i : ℕ) :
    defectStep α fcos fsin fatan N dt coeffs vars fg i (2 + psi_start N + i) =
      defect_psi α N dt vars i := by
  simp only [defectStep, Function.update_apply]
  rw [if_neg (by simp only [psi_start_eq, epsi_start_eq]; omega),
    if_neg (by simp only [psi_start_eq, cte_start_eq]; omega),
    if_neg (by simp only [psi_start_eq, v_start_eq]; omega),
    if_pos trivial]

lemma defectStep_apply_v (α : Type) [Field α] (fcos fsin fatan : α → α)
    (N : ℕ) (hN : 1 ≤ N) (dt : α) (coeffs vars fg : ℕ → α) (i : ℕ) :
    defectStep α fcos fsin fatan N dt coeffs vars fg i (2 + v_start N + i) =
      defect_v α N dt vars i := by
  simp only [defectStep, Function.update_apply]
  rw [if_neg (by simp only [v_start_eq, epsi_start_eq]; omega),
    if_neg (by simp only [v_start_eq, cte_start_eq]; omega),
    if_pos trivial]

lemma defectStep_apply_cte (α : Type) [Field α] (fcos fsin fatan : α → α)
    (N : ℕ) (hN : 1 ≤ N) (dt : α) (coeffs vars fg : ℕ → α) (i : ℕ) :
    defectStep α fcos fsin fatan N dt coeffs vars fg i (2 + cte_start N + i) =
      defect_cte α fsin N dt coeffs vars i := by
  simp only [defectStep, Function.update_apply]
  rw [if_neg (by simp only [cte_start_eq, epsi_start_eq]; omega),
    if_pos trivial]

lemma defectStep_apply_epsi (α : Type) [Field α] (fcos fsin fatan : α → α)
    (N : ℕ) (dt : α) (coeffs vars fg : ℕ → α) (i : ℕ) :
    defectStep α fcos fsin fatan N dt coeffs vars fg i (2 + epsi_start N + i) =
      defect_epsi α fatan N dt coeffs vars i := by
  simp only [defectStep, Function.update_apply]
  rw [if_pos trivial]

lemma range_split_at (i n : ℕ) (h : i < n) :
    List.range n =
      (List.range i ++ [i]) ++ (List.range (n - i - 1)).map (fun j => i + 1 + j) := by
  conv_lhs => rw [show n = (i + 1) + (n - i - 1) by omega]
  rw [List.range_add]
  congr 1
  exact List.range_succ i

lemma mem_upper_part (i n j : ℕ)
    (hj : j ∈ (List.range (n - i - 1)).map (fun j => i + 1 + j)) :
    i < j ∧ j < n := by
  simp only [List.mem_map, List.mem_range] at hj
  obtain ⟨j0, hj0, rfl⟩ := hj
  omega

lemma FG_eval_apply_defects (α : Type) [Field α] (fcos fsin fatan : α → α)
    (N : ℕ) (hN : 2 ≤ N) (dt : α) (coeffs vars : ℕ → α) (i : ℕ) (hi : i < N - 1) :
    FG_eval α fcos fsin fatan N dt coeffs vars (2 + x_start N + i) =
      defect_x α fcos N dt vars i ∧
    FG_eval α fcos fsin fatan N dt coeffs vars (2 + y_start N + i) =
      defect_y α fsin N dt vars i ∧
    FG_eval α fcos fsin fatan N dt coeffs vars (2 + psi_start N + i) =
      defect_psi α N dt vars i ∧
    FG_eval α fcos fsin fatan N dt coeffs vars (2 + v_start N + i) =
      defect_v α N dt vars i ∧
    FG_eval α fcos fsin fatan N dt coeffs vars (2 + cte_start N + i) =
      defect_cte α fsin N dt coeffs vars i ∧
    FG_eval α fcos fsin fatan N dt coeffs vars (2 + epsi_start N + i) =
      defect_epsi α fatan N dt coeffs vars i := by
  have hN1 : 1 ≤ N := by omega
  simp only [FG_eval]
  rw [range_split_at i (N - 1) hi, List.foldl_append, List.foldl_append,
    List.foldl_cons, List.foldl_nil]
  refine ⟨?_, ?_, ?_, ?_, ?_, ?_⟩
  · rw [foldl_defectStep_miss α fcos fsin fatan N dt coeffs vars
      (2 + x_start N + i) ((List.range (N - 1 - i - 1)).map (fun j => i + 1 + j))
      (fun j hj => by
        have hij := mem_upper_part i (N - 1) j hj
        refine ⟨?_, ?_, ?_, ?_, ?_, ?_⟩ <;>
          (simp only [x_start_eq, y_start_eq, psi_start_eq, v_start_eq,
            cte_start_eq, epsi_start_eq]; omega)),
      defectStep_apply_x α fcos fsin fatan N hN1]
  · rw [foldl_defectStep_miss α fcos fsin fatan N dt coeffs vars
      (2 + y_start N + i) ((List.range (N - 1 - i - 1)).map (fun j => i + 1 + j))
      (fun j hj => by
        have hij := mem_upper_part i (N - 1) j hj
        refine ⟨?_, ?_, ?_, ?_, ?_, ?_⟩ <;>
          (simp only [x_start_eq, y_start_eq, psi_start_eq, v_start_eq,
            cte_start_eq, epsi_start_eq]; omega)),
      defectStep_apply_y α fcos fsin fatan N hN1]
  · rw [foldl_defectStep_miss α fcos fsin fatan N dt coeffs vars
      (2 + psi_start N + i) ((List.range (N - 1 - i - 1)).map (fun j => i + 1 + j))
      (fun j hj => by
        have hij := mem_upper_part i (N - 1) j hj
        refine ⟨?_, ?_, ?_, ?_, ?_, ?_⟩ <;>
          (simp only [x_start_eq, y_start_eq, psi_start_eq, v_start_eq,
            cte_start_eq, epsi_start_eq]; omega)),
      defectStep_apply_psi α fcos fsin fatan N hN1]
  · rw [foldl_defectStep_miss α fcos fsin fatan N dt coeffs vars
      (2 + v_start N + i) ((List.range (N - 1 - i - 1)).map (fun j => i + 1 + j))
      (fun j hj => by
        have hij := mem_upper_part i (N - 1) j hj
        refine ⟨?_, ?_, ?_, ?_, ?_, ?_⟩ <;>
          (simp only [x_start_eq, y_start_eq, psi_start_eq, v_start_eq,
            cte_start_eq, epsi_start_eq]; omega)),
      defectStep_apply_v α fcos fsin fatan N hN1]
  · rw [foldl_defectStep_miss α fcos fsin fatan N dt coeffs vars
      (2 + cte_start N + i) ((List.range (N - 1 - i - 1)).map (fun j => i + 1 + j))
      (fun j hj => by
        have hij := mem_upper_part i (N - 1) j hj
        refine ⟨?_, ?_, ?_, ?_, ?_, ?_⟩ <;>
          (simp only [x_start_eq, y_start_eq, psi_start_eq, v_start_eq,
            cte_start_eq, epsi_start_eq]; omega)),
      defectStep_apply_cte α fcos fsin fatan N hN1]
  · rw [foldl_defectStep_miss α fcos fsin fatan N dt coeffs vars
      (2 + epsi_start N + i) ((List.range (N - 1 - i - 1)).map (fun j => i + 1 + j))
      (fun j hj => by
        have hij := mem_upper_part i (N - 1) j hj
        refine ⟨?_, ?_, ?_, ?_, ?_, ?_⟩ <;>
          (simp only [x_start_eq, y_start_eq, psi_start_eq, v_start_eq,
            cte_start_eq, epsi_start_eq]; omega)),
      defectStep_apply_epsi α fcos fsin fatan N]

lemma polyAt_eq_f0val (α : Type) [Field α] (coeffs : ℕ → α) (x : α) :
    polyAt α coeffs x = f0val α coeffs x := by
  simp [polyAt, f0val, Finset.sum_range_succ]

lemma polyDerivAt_eq (α : Type) [Field α] (coeffs : ℕ → α) (x : α) :
    polyDerivAt α coeffs x = coeffs 1 + 2 * coeffs 2 * x + 3 * coeffs 3 * x ^ 2 := by
  simp [polyDerivAt, Finset.sum_range_succ]
  ring

lemma FG_eval_apply_zero (α : Type) [Field α] (fcos fsin fatan : α → α)
    (N : ℕ) (dt : α) (coeffs vars : ℕ → α) :
    FG_eval α fcos fsin fatan N dt coeffs vars 0 = costAcc α N vars := by
  simp only [FG_eval]
  rw [foldl_defectStep_miss α fcos fsin fatan N dt coeffs vars 0 (List.range (N - 1))
    (fun j hj => by refine ⟨?_, ?_, ?_, ?_, ?_, ?_⟩ <;> omega)]
  simp only [fgInitWrite, Function.update_apply]
  rw [if_neg (by omega : ¬ (0 = 1 + epsi_start N)),
    if_neg (by omega : ¬ (0 = 1 + cte_start N)),
    if_neg (by omega : ¬ (0 = 1 + v_start N)),
    if_neg (by omega : ¬ (0 = 1 + psi_start N)),
    if_neg (by omega : ¬ (0 = 1 + y_start N)),
    if_neg (by omega : ¬ (0 = 1 + x_start N))]
  exact Function.update_same 0 (costAcc α N vars) (fun _ => (0 : α))

lemma foldl_add_sum (α : Type) [Field α] (F : ℕ → α) :
    ∀ (n : ℕ) (init : α),
      (List.range n).foldl (fun acc i => acc + F i) init =
        init + ∑ k in Finset.range n, F k := by
  intro n
  induction n with
  | zero => intro init; simp
  | succ m ih =>
    intro init
    rw [List.range_succ, List.foldl_append, ih, List.foldl_cons, List.foldl_nil,
      Finset.sum_range_succ, add_assoc]

lemma costAcc_eq_sums (α : Type) [Field α] (N : ℕ) (vars : ℕ → α) :
    costAcc α N vars =
      (∑ i in Finset.range N, ((vars (cte_start N + i) - ref_cte α) ^ 2 +
        (vars (epsi_start N + i) - ref_epsi α) ^ 2 +
        (vars (v_start N + i) - ref_v α) ^ 2)) +
      (∑ i in Finset.range (N - 1),
        (vars (delta_start N + i) ^ 2 + vars (a_start N + i) ^ 2)) +
      (∑ i in Finset.range (N - 2),
        ((vars (delta_start N + i + 1) - vars (delta_start N + i)) ^ 2 +
         (vars (a_start N + i + 1) - vars (a_start N + i)) ^ 2)) := by
  rw [costAcc]
  have e1 : (fun (acc : α) i =>
      acc + (vars (cte_start N + i) - ref_cte α) ^ 2
          + (vars (epsi_start N + i) - ref_epsi α) ^ 2
          + (vars (v_start N + i) - ref_v α) ^ 2) =
      fun (acc : α) i => acc + ((vars (cte_start N + i) - ref_cte α) ^ 2 +
        (vars (epsi_start N + i) - ref_epsi α) ^ 2 +
        (vars (v_start N + i) - ref_v α) ^ 2) := by
    funext acc i; ring
  have e2 : (fun (acc : α) i =>
      acc + vars (delta_start N + i) ^ 2 + vars (a_start N + i) ^ 2) =
      fun (acc : α) i => acc + (vars (delta_start N + i) ^ 2 +
        vars (a_start N + i) ^ 2) := by
    funext acc i; ring
  have e3 : (fun (acc : α) i =>
      acc + (vars (delta_start N + i + 1) - vars (delta_start N + i)) ^ 2
          + (vars (a_start N + i + 1) - vars (a_start N + i)) ^ 2) =
      fun (acc : α) i => acc +
        ((vars (delta_start N + i + 1) - vars (delta_start N + i)) ^ 2 +
         (vars (a_start N + i + 1) - vars (a_start N + i)) ^ 2) := by
    funext acc i; ring
  rw [e1, e2, e3, foldl_add_sum, foldl_add_sum, foldl_add_sum, zero_add]

/-- C3: for every decision vector, the cost computed by the trajectory
evaluator into fg[0] equals the unweighted sum of the squared
reference-tracking errors over all N horizon steps, plus the squared
actuator magnitudes over the N-1 actuation steps, plus the squared gaps
of consecutive actuations over the N-2 pairs, every term with weight
one. -/
theorem cost_is_unweighted_sum (N : ℕ) (dt : ℝ) (coeffs vars : ℕ → ℝ) :
    FG_eval ℝ Real.cos Real.sin Real.arctan N dt coeffs vars 0 =
      (∑ i in Finset.range N, ((vars (cte_start N + i) - ref_cte ℝ) ^ 2 +
        (vars (epsi_start N + i) - ref_epsi ℝ) ^ 2 +
        (vars (v_start N + i) - ref_v ℝ) ^ 2)) +
      (∑ i in Finset.range (N - 1),
        (vars (delta_start N + i) ^ 2 + vars (a_start N + i) ^ 2)) +
      (∑ i in Finset.range (N - 2),
        ((vars (delta_start N + i + 1) - vars (delta_start N + i)) ^ 2 +
         (vars (a_start N + i + 1) - vars (a_start N + i)) ^ 2)) := by
  rw [FG_eval_apply_zero, costAcc_eq_sums]

/-- The coverage read off the claim as stated: every constraint entry of
the evaluator output (indices 1 through 6N of fg) is either one of the
six initial-condition slots or a defect slot for some step i in the
half-open range [0, N-2). -/
def claimCoverage (N : ℕ) : Prop :=
  ∀ k, 1 ≤ k → k ≤ n_constraints N →
    (∃ s ∈ ([x_start N, y_start N, psi_start N, v_start N, cte_start N,
      epsi_start N] : List ℕ), k = 1 + s) ∨
    (∃ s ∈ ([x_start N, y_start N, psi_start N, v_start N, cte_start N,
      epsi_start N] : List ℕ), ∃ i, i < N - 2 ∧ k = 2 + s + i)

/-- C2 counterexample: at the source horizon N = 25 the claimed step range
[0, N-2) leaves constraint entries uncovered: fg index 25 is the x defect
slot of step 23 = N - 2, which the claimed range excludes, so the claimed
decomposition of the 6N constraint entries fails. -/
theorem defect_range_claim_gap : ¬ claimCoverage 25 := by
  intro h
  have h25 := h 25 (by norm_num) (by norm_num [n_constraints])
  rcases h25 with ⟨s, hs, hk⟩ | ⟨s, hs, i, hi, hk⟩
  · simp only [List.mem_cons, List.not_mem_nil, or_false,
      x_start_eq, y_start_eq, psi_start_eq, v_start_eq, cte_start_eq,
      epsi_start_eq] at hs
    rcases hs with rfl | rfl | rfl | rfl | rfl | rfl <;> omega
  · simp only [List.mem_cons, List.not_mem_nil, or_false,
      x_start_eq, y_start_eq, psi_start_eq, v_start_eq, cte_start_eq,
      epsi_start_eq] at hs
    rcases hs with rfl | rfl | rfl | rfl | rfl | rfl <;> omega

/-- C2 amended: for each step i in the half-open range [0, N-1), the
trajectory evaluator sets the defect-constraint entries for step i+1 (the
fg entries at index 2 + block_start + i) to the residuals of the six
discrete kinematic bicycle update equations, using f(x[i]) and
atan(f'(x[i])) from the fitted order-3 polynomial, and together with the
six initial-condition entries these 6(N-1) defect residuals fill all 6N
constraint entries. -/
theorem defect_constraints_fill (N : ℕ) (hN : 2 ≤ N) (dt : ℝ)
    (coeffs vars : ℕ → ℝ) :
    (∀ i, i < N - 1 →
      FG_eval ℝ Real.cos Real.sin Real.arctan N dt coeffs vars (2 + x_start N + i) =
        vars (x_start N + i + 1) -
          (vars (x_start N + i) +
            vars (v_start N + i) * Real.cos (vars (psi_start N + i)) * dt) ∧
      FG_eval ℝ Real.cos Real.sin Real.arctan N dt coeffs vars (2 + y_start N + i) =
        vars (y_start N + i + 1) -
          (vars (y_start N + i) +
            vars (v_start N + i) * Real.sin (vars (psi_start N + i)) * dt) ∧
      FG_eval ℝ Real.cos Real.sin Real.arctan N dt coeffs vars (2 + psi_start N + i) =
        vars (psi_start N + i + 1) -
          (vars (psi_start N + i) +
            vars (v_start N + i) / Lf ℝ * vars (delta_start N + i) * dt) ∧
      FG_eval ℝ Real.cos Real.sin Real.arctan N dt coeffs vars (2 + v_start N + i) =
        vars (v_start N + i + 1) -
          (vars (v_start N + i) + vars (a_start N + i) * dt) ∧
      FG_eval ℝ Real.cos Real.sin Real.arctan N dt coeffs vars (2 + cte_start N + i) =
        vars (cte_start N + i + 1) -
          ((polyAt ℝ coeffs (vars (x_start N + i)) - vars (y_start N + i)) +
            vars (v_start N + i) * Real.sin (vars (epsi_start N + i)) * dt) ∧
      FG_eval ℝ Real.cos Real.sin Real.arctan N dt coeffs vars (2 + epsi_start N + i) =
        vars (epsi_start N + i + 1) -
          ((vars (psi_start N + i) -
              Real.arctan (polyDerivAt ℝ coeffs (vars (x_start N + i)))) +
            vars (v_start N + i) * vars (delta_start N + i) / Lf ℝ * dt)) ∧
    (∀ k, 1 ≤ k → k ≤ 6 * N →
      (∃ b, b < 6 ∧ k = 1 + b * N) ∨
      (∃ b, b < 6 ∧ ∃ i, i < N - 1 ∧ k = 2 + b * N + i)) := by
  constructor
  · intro i hi
    obtain ⟨ex, ey, epsi2, ev, ecte, eepsi⟩ :=
      FG_eval_apply_defects ℝ Real.cos Real.sin Real.arctan N hN dt coeffs vars i hi
    refine ⟨?_, ?_, ?_, ?_, ?_, ?_⟩
    · rw [ex, defect_x]
    · rw [ey, defect_y]
    · rw [epsi2, defect_psi]; ring
    · rw [ev, defect_v]
    · rw [ecte, defect_cte, polyAt_eq_f0val]
    · rw [eepsi, defect_epsi, psides0val, polyDerivAt_eq]
  · intro k hk1 hk2
    have hN0 : 0 < N := by omega
    obtain ⟨b, r, hbr, hrN⟩ : ∃ b r, k - 1 = N * b + r ∧ r < N :=
      ⟨(k - 1) / N, (k - 1) % N, (Nat.div_add_mod (k - 1) N).symm,
        Nat.mod_lt _ hN0⟩
    have hb6 : b < 6 := by
      by_contra hb
      push_neg at hb
      have : 6 * N ≤ N * b := by
        calc 6 * N = N * 6 := by ring
        _ ≤ N * b := Nat.mul_le_mul_left N hb
      omega
    rw [Nat.mul_comm N b] at hbr
    rcases Nat.eq_zero_or_pos r with hr | hr
    · left
      exact ⟨b, hb6, by omega⟩
    · right
      exact ⟨b, hb6, r - 1, by omega, by omega⟩

/-- Witness for the amended C2 at N = 25 with a concrete decision
vector. -/
theorem defect_constraints_fill_witness :
    2 ≤ 25 ∧
    ((∀ i, i < 25 - 1 →
      FG_eval ℝ Real.cos Real.sin Real.arctan 25 1 (fun _ => 1) (fun _ => 0)
          (2 + x_start 25 + i) =
        0 - (0 + 0 * Real.cos 0 * 1) ∧
      FG_eval ℝ Real.cos Real.sin Real.arctan 25 1 (fun _ => 1) (fun _ => 0)
          (2 + y_start 25 + i) =
        0 - (0 + 0 * Real.sin 0 * 1) ∧
      FG_eval ℝ Real.cos Real.sin Real.arctan 25 1 (fun _ => 1) (fun _ => 0)
          (2 + psi_start 25 + i) =
        0 - (0 + 0 / Lf ℝ * 0 * 1) ∧
      FG_eval ℝ Real.cos Real.sin Real.arctan 25 1 (fun _ => 1) (fun _ => 0)
          (2 + v_start 25 + i) =
        0 - (0 + 0 * 1) ∧
      FG_eval ℝ Real.cos Real.sin Real.arctan 25 1 (fun _ => 1) (fun _ => 0)
          (2 + cte_start 25 + i) =
        0 - ((polyAt ℝ (fun _ => 1) 0 - 0) + 0 * Real.sin 0 * 1) ∧
      FG_eval ℝ Real.cos Real.sin Real.arctan 25 1 (fun _ => 1) (fun _ => 0)
          (2 + epsi_start 25 + i) =
        0 - ((0 - Real.arctan (polyDerivAt ℝ (fun _ => 1) 0)) +
          0 * 0 / Lf ℝ * 1)) ∧
    (∀ k, 1 ≤ k → k ≤ 6 * 25 →
      (∃ b, b < 6 ∧ k = 1 + b * 25) ∨
      (∃ b, b < 6 ∧ ∃ i, i < 25 - 1 ∧ k = 2 + b * 25 + i))) :=
  ⟨by norm_num, defect_constraints_fill 25 (by norm_num) 1 (fun _ => 1) (fun _ => 0)⟩

/-- Source lines 121-122 with explicit bounds checking: one iteration of
the defect loop performs the four coefficient reads coeffs[0], coeffs[1],
coeffs[2], coeffs[3] unconditionally (the degree-3 polynomial and its
derivative are hardcoded); each read is modelled as a fallible list
access, and when all succeed the iteration proceeds as defectStep. -/
def defectStepChecked (α : Type) [Field α] (fcos fsin fatan : α → α) (N : ℕ)
    (dt : α) (coeffs : List α) (vars : ℕ → α) (fg : ℕ → α) (i : ℕ) :
    Option (ℕ → α) := do
  let _ ← coeffs[0]?
  let _ ← coeffs[1]?
  let _ ← coeffs[2]?
  let _ ← coeffs[3]?
  return defectStep α fcos fsin fatan N dt (fun k => coeffs.getD k 0) vars fg i

/-- Source lines 100-142 with explicit bounds checking: the whole defect
loop, failing if any coefficient access is out of range. -/
def fgDefectsChecked (α : Type) [Field α] (fcos fsin fatan : α → α) (N : ℕ)
    (dt : α) (coeffs : List α) (vars fg : ℕ → α) : Option (ℕ → α) :=
  List.foldlM (defectStepChecked α fcos fsin fatan N dt coeffs vars) fg
    (List.range (N - 1))

lemma defectStepChecked_isSome (α : Type) [Field α] (fcos fsin fatan : α → α)
    (N : ℕ) (dt : α) (coeffs : List α) (vars : ℕ → α)
    (h : 4 ≤ coeffs.length) (fg : ℕ → α) (i : ℕ) :
    defectStepChecked α fcos fsin fatan N dt coeffs vars fg i =
      some (defectStep α fcos fsin fatan N dt (fun k => coeffs.getD k 0) vars fg i) := by
  rw [defectStepChecked,
    List.getElem?_eq_getElem (by omega : 0 < coeffs.length),
    List.getElem?_eq_getElem (by omega : 1 < coeffs.length),
    List.getElem?_eq_getElem (by omega : 2 < coeffs.length),
    List.getElem?_eq_getElem (by omega : 3 < coeffs.length)]
  rfl

lemma defectStepChecked_none (α : Type) [Field α] (fcos fsin fatan : α → α)
    (N : ℕ) (dt : α) (coeffs : List α) (vars : ℕ → α)
    (h : coeffs.length < 4) (fg : ℕ → α) (i : ℕ) :
    defectStepChecked α fcos fsin fatan N dt coeffs vars fg i = none := by
  rcases coeffs with _ | ⟨a, _ | ⟨b, _ | ⟨c, _ | ⟨d, t⟩⟩⟩⟩
  · rfl
  · rfl
  · rfl
  · rfl
  · simp only [List.length_cons] at h
    omega

lemma foldlM_option_isSome (σ γ : Type) (f : σ → γ → Option σ)
    (hf : ∀ s a, ∃ s2, f s a = some s2) :
    ∀ (l : List γ) (s : σ), ∃ s3, List.foldlM f s l = some s3 := by
  intro l
  induction l with
  | nil => intro s; exact ⟨s, rfl⟩
  | cons a t ih =>
    intro s
    obtain ⟨s2, hs2⟩ := hf s a
    obtain ⟨s3, hs3⟩ := ih s2
    exact ⟨s3, by rw [List.foldlM_cons, hs2]; exact hs3⟩

/-- C10: the trajectory evaluator unconditionally reads polynomial
coefficient entries 0 through 3 in every defect-loop iteration, so a
solve (which runs the loop at least once when N is at least 2) requires a
coefficient vector of length at least 4: with length at least 4 every
coefficient access is in range and the loop produces a result, and with
length below 4 the very first iteration performs an out-of-range access. -/
theorem coeff_access_requires_len4 (N : ℕ) (hN : 2 ≤ N) (dt : ℝ)
    (coeffs : List ℝ) (vars fg : ℕ → ℝ) :
    (4 ≤ coeffs.length →
      (fgDefectsChecked ℝ Real.cos Real.sin Real.arctan N dt coeffs vars fg).isSome
        = true) ∧
    (coeffs.length < 4 →
      fgDefectsChecked ℝ Real.cos Real.sin Real.arctan N dt coeffs vars fg = none) := by
  constructor
  · intro h
    obtain ⟨s3, hs3⟩ := foldlM_option_isSome (ℕ → ℝ) ℕ
      (defectStepChecked ℝ Real.cos Real.sin Real.arctan N dt coeffs vars)
      (fun s a => ⟨_, defectStepChecked_isSome ℝ Real.cos Real.sin Real.arctan
        N dt coeffs vars h s a⟩)
      (List.range (N - 1)) fg
    rw [fgDefectsChecked, hs3]
    rfl
  · intro h
    rw [fgDefectsChecked, show N - 1 = (N - 2) + 1 by omega,
      List.range_succ_eq_map, List.foldlM_cons,
      defectStepChecked_none ℝ Real.cos Real.sin Real.arctan N dt coeffs vars h fg 0]
    rfl

/-- Witness for C10 at N = 25 with concrete coefficient vectors. -/
theorem coeff_access_requires_len4_witness :
    2 ≤ 25 ∧
    ((4 ≤ ([1, 2, 3, 4] : List ℝ).length →
      (fgDefectsChecked ℝ Real.cos Real.sin Real.arctan 25 1 [1, 2, 3, 4]
        (fun _ => 0) (fun _ => 0)).isSome = true) ∧
    (([1, 2, 3, 4] : List ℝ).length < 4 →
      fgDefectsChecked ℝ Real.cos Real.sin Real.arctan 25 1 [1, 2, 3, 4]
        (fun _ => 0) (fun _ => 0) = none)) :=
  ⟨by norm_num, coeff_access_requires_len4 25 (by norm_num) 1 [1, 2, 3, 4]
    (fun _ => 0) (fun _ => 0)⟩

end MpcToLine
